import Mathlib

/-
Verification of the delegate-USDT precompiled contract
(`src/xtopcom/xevm_contract_runtime/src/xdelegate_usdt_contract.cpp`).

The dispatcher `execute` below is a shallow embedding of
`xtop_delegate_usdt_contract::execute`.  The parts the contract consumes as
black boxes (the ABI decoder, the ledger accessors, address derivation and
the event-signature hash constants) are modelled from the specification:
parameters arrive pre-decoded as a typed list, ledger accounts are keyed by
the 20-byte EVM address (address derivation is pure and injective), and log
topics carry either a symbolic event-signature tag or an address word.
-/

namespace UsdtPrecompile

/-- Parameter value produced by the external ABI decoder: either a 20-byte
address or a 256-bit unsigned integer, both modelled as natural numbers. -/
inductive Param
  | addr (a : Nat)
  | uint (v : Nat)
deriving DecidableEq

/-- ABI type tag of a parameter. -/
inductive PType
  | address
  | uint
deriving DecidableEq

/-- Type tag of a decoded parameter. -/
def tyOf : Param → PType
  | .addr _ => .address
  | .uint _ => .uint

/-- Event kinds whose signature hashes the contract emits as topic 0
(`event_hex_string_transfer`, `event_hex_string_approve`,
`event_hex_string_ownership_transferred`, `event_hex_string_controller_set`).
The hash constants live in a header outside the sources; only their identity
matters, so they are kept symbolic. -/
inductive EventKind
  | transfer
  | approval
  | ownershipTransferred
  | controllerSet
deriving DecidableEq

/-- Log topic: the fixed event-signature constant, or an address left-padded
to a 32-byte word (`xeth_address_t::to_h256`). -/
inductive Topic
  | sig (e : EventKind)
  | addr (a : Nat)
deriving DecidableEq

/-- EVM log (`xevm_log_t`): emitting contract address, topics, data bytes. -/
structure EvmLog where
  address : Nat
  topics : List Topic
  data : List Nat
deriving DecidableEq

/-- Minor status of a Fatal outcome (`precompile_error_ExitFatal`). -/
inductive FatalKind
  | other
  | notSupported
deriving DecidableEq

/-- Minor status of an Error outcome (`precompile_error_ExitError`); the
contract only ever produces `OutOfGas`. -/
inductive ErrorKind
  | outOfGas
deriving DecidableEq

/-- Minor status of a Revert outcome (`precompile_error_ExitRevert`); the
contract only ever produces `Reverted`. -/
inductive RevertKind
  | reverted
deriving DecidableEq

/-- Outcome of one invocation.  `success c o lg` is the filled-in
`sys_contract_precompile_output` (exit status `Returned`, cost `c`, output
bytes `o`, logs `lg`); the other constructors are the filled-in
`sys_contract_precompile_error` (`fail_status`, `minor_status`, and for
Revert its `cost` and `output`; the C++ leaves cost/output defaulted on
Fatal and Error). -/
inductive ExecStatus
  | success (cost : Nat) (output : List Nat) (logs : List EvmLog)
  | fatal (k : FatalKind)
  | error (k : ErrorKind)
  | revert (k : RevertKind) (cost : Nat) (output : List Nat)
deriving DecidableEq

/-- Call context supplied by the host (`sys_contract_context`): caller and
contract address, as 20-byte EVM addresses. -/
structure Ctx where
  caller : Nat
  address : Nat
deriving DecidableEq

/-- Ledger state visible to the contract through the staged state context,
keyed by EVM address (the derivation from EVM address to native account
address is pure and injective, so accounts are keyed directly by the EVM
address).  `owner` and `controller` are the role fields stored on the
contract's own account for the eth chain tag.  `approveFails` is the
abstract failure condition of the black-box ledger `approve` operation
(modelled from the spec: ledger operations return a `Result`; the condition
under which `approve` fails is internal to the ledger). -/
structure Ledger where
  balance : Nat → Nat
  allowance : Nat → Nat → Nat
  owner : Nat
  controller : Nat
  approveFails : Nat → Nat → Nat → Bool

/-- Result of one `execute` invocation: the C++ bool return value, the
outcome struct that got filled, and the ledger as left by the call. -/
structure ExecOut where
  ret : Bool
  status : ExecStatus
  ledger : Ledger

/-- Big-endian byte encoding of a value in `n` bytes (`top::to_bytes` on a
`u256` yields the 32-byte big-endian encoding). -/
def beBytes : Nat → Nat → List Nat
  | 0, _ => []
  | n + 1, v => beBytes n (v / 256) ++ [v % 256]

/-- The 32-byte zero buffer `xbytes_t result(32, 0)`. -/
def zeros32 : List Nat := List.replicate 32 0

/-- The 32-byte buffer after `result[31] = 1`. -/
def oneWord : List Nat := List.replicate 31 0 ++ [1]

/-- Credit `v` to the balance of account `a` (`tep_token_deposit`). -/
def addBal (l : Ledger) (a v : Nat) : Ledger :=
  { l with balance := fun x => if x = a then l.balance x + v else l.balance x }

/-- Debit `v` from the balance of account `a` (`tep_token_withdraw`); the
black-box behaviour on underflow is not relied upon by any theorem below,
and is rendered as truncated subtraction. -/
def subBal (l : Ledger) (a v : Nat) : Ledger :=
  { l with balance := fun x => if x = a then l.balance x - v else l.balance x }

/-- Modelled from the spec: the ledger `transfer(token, to, amount)`
operation moves `v` from `src` to `dst` and fails with no state change when
the source balance is below the amount (balances never go negative;
operations fail rather than underflow). -/
def ledgerTransfer (l : Ledger) (src dst v : Nat) : Option Ledger :=
  if l.balance src < v then none
  else some (addBal (subBal l src v) dst v)

/-- Modelled from the spec: `update_allowance(token, spender, amount,
decrease)` debits the (owner, spender) allowance and fails with no state
change when the stored allowance is below the amount (allowances never go
negative; operations fail rather than underflow). -/
def decAllowance (l : Ledger) (ownerA spender v : Nat) : Option Ledger :=
  if l.allowance ownerA spender < v then none
  else some { l with allowance := fun o s =>
    if o = ownerA ∧ s = spender then l.allowance o s - v else l.allowance o s }

/-- Modelled from the spec: the ledger `approve` operation sets the
(owner, spender) allowance absolutely (overwrites, not additive). -/
def setAllowance (l : Ledger) (ownerA spender v : Nat) : Ledger :=
  { l with allowance := fun o s =>
    if o = ownerA ∧ s = spender then v else l.allowance o s }

/-- Extraction of an address parameter (`abi_decoder.extract<xeth_address_t>`):
fails unless the next parameter is an address. -/
def extAddr : List Param → Option (Nat × List Param)
  | .addr a :: rest => some (a, rest)
  | _ => none

/-- Extraction of a u256 parameter (`abi_decoder.extract<u256>`): fails
unless the next parameter is a 256-bit integer. -/
def extU256 : List Param → Option (Nat × List Param)
  | .uint v :: rest => some (v, rest)
  | _ => none

/-- Handler for `decimals` (source case `method_id_decimals`): no gas check,
no parameter check; returns the constant 18. -/
def runDecimals (l : Ledger) : ExecOut :=
  ⟨true, .success 0 (beBytes 32 18) [], l⟩

/-- Handler for `totalSupply` (source case `method_id_total_supply`). -/
def runTotalSupply (gas : Nat) (params : List Param) (l : Ledger) : ExecOut :=
  if gas < 2538 then ⟨false, .error .outOfGas, l⟩
  else if params ≠ [] then ⟨false, .fatal .other, l⟩
  else ⟨true, .success 0 (beBytes 32 45257057549529550000000000000) [], l⟩

/-- Handler for `balanceOf` (source case `method_id_balance_of`). -/
def runBalanceOf (gas : Nat) (params : List Param) (l : Ledger) : ExecOut :=
  if gas < 3268 then ⟨false, .error .outOfGas, l⟩
  else if params.length ≠ 1 then ⟨false, .fatal .other, l⟩
  else match extAddr params with
    | none => ⟨false, .fatal .other, l⟩
    | some (a, _) => ⟨true, .success 0 (beBytes 32 (l.balance a)) [], l⟩

/-- Handler for `transfer` (source case `method_id_transfer`): static check,
gas check (cost 18446), arity check, decode, then one ledger transfer from
the caller to the recipient; success emits one Transfer log and returns the
word with low byte 1; ledger failure reverts with cost 3662. -/
def runTransfer (gas : Nat) (ctx : Ctx) (st : Bool) (params : List Param) (l : Ledger) : ExecOut :=
  if st then ⟨false, .revert .reverted 18446 zeros32, l⟩
  else if gas < 18446 then ⟨false, .error .outOfGas, l⟩
  else if params.length ≠ 2 then ⟨false, .fatal .other, l⟩
  else match extAddr params with
    | none => ⟨false, .fatal .other, l⟩
    | some (toA, rest) =>
      match extU256 rest with
      | none => ⟨false, .fatal .other, l⟩
      | some (v, _) =>
        match ledgerTransfer l ctx.caller toA v with
        | some l2 =>
          ⟨true, .success 0 oneWord
            [⟨ctx.address, [.sig .transfer, .addr ctx.caller, .addr toA], beBytes 32 v⟩], l2⟩
        | none => ⟨false, .revert .reverted 3662 zeros32, l⟩

/-- Handler for `transferFrom` (source case `method_id_transfer_from`):
static check, gas check (cost 18190), arity check, decode, then TWO
independent ledger calls — the allowance decrement and the balance
transfer.  When the second call fails, the ledger keeps the allowance
decrement of the first call (the source performs no rollback); the revert
branch carries cost 4326. -/
def runTransferFrom (gas : Nat) (ctx : Ctx) (st : Bool) (params : List Param) (l : Ledger) : ExecOut :=
  if st then ⟨false, .revert .reverted 18190 zeros32, l⟩
  else if gas < 18190 then ⟨false, .error .outOfGas, l⟩
  else if params.length ≠ 3 then ⟨false, .fatal .other, l⟩
  else match extAddr params with
    | none => ⟨false, .fatal .other, l⟩
    | some (ownerA, r1) =>
      match extAddr r1 with
      | none => ⟨false, .fatal .other, l⟩
      | some (recipA, r2) =>
        match extU256 r2 with
        | none => ⟨false, .fatal .other, l⟩
        | some (v, _) =>
          match decAllowance l ownerA ctx.caller v with
          | none => ⟨false, .revert .reverted 4326 zeros32, l⟩
          | some l1 =>
            match ledgerTransfer l1 ownerA recipA v with
            | none => ⟨false, .revert .reverted 4326 zeros32, l1⟩
            | some l2 =>
              ⟨true, .success 0 oneWord
                [⟨ctx.address, [.sig .transfer, .addr ownerA, .addr recipA], beBytes 32 v⟩], l2⟩

/-- Handler for `approve` (source case `method_id_approve`): static check,
gas check (cost 18599), arity check, decode, then the ledger approve.  The
source case returns `true` unconditionally at its end, so on a ledger-level
approve failure the error struct is filled (Revert, half the approve gas
cost) while the function still reports success to the host. -/
def runApprove (gas : Nat) (ctx : Ctx) (st : Bool) (params : List Param) (l : Ledger) : ExecOut :=
  if st then ⟨false, .revert .reverted 18599 zeros32, l⟩
  else if gas < 18599 then ⟨false, .error .outOfGas, l⟩
  else if params.length ≠ 2 then ⟨false, .fatal .other, l⟩
  else match extAddr params with
    | none => ⟨false, .fatal .other, l⟩
    | some (spenderA, r1) =>
      match extU256 r1 with
      | none => ⟨false, .fatal .other, l⟩
      | some (amt, _) =>
        if l.approveFails ctx.caller spenderA amt then
          ⟨true, .revert .reverted (18599 / 2) zeros32, l⟩
        else
          ⟨true, .success 0 oneWord
            [⟨ctx.address, [.sig .approval, .addr ctx.caller, .addr spenderA], beBytes 32 amt⟩],
            setAllowance l ctx.caller spenderA amt⟩

/-- Handler for `allowance` (source case `method_id_allowance`). -/
def runAllowance (gas : Nat) (params : List Param) (l : Ledger) : ExecOut :=
  if gas < 3987 then ⟨false, .error .outOfGas, l⟩
  else if params.length ≠ 2 then ⟨false, .fatal .other, l⟩
  else match extAddr params with
    | none => ⟨false, .fatal .other, l⟩
    | some (ownerA, r1) =>
      match extAddr r1 with
      | none => ⟨false, .fatal .other, l⟩
      | some (spenderA, _) =>
        ⟨true, .success 0 (beBytes 32 (l.allowance ownerA spenderA)) [], l⟩

/-- Handler for `mint` (source case `method_id_mint`): static check, THEN
the controller authorization check, THEN the gas check (cost 3155), then
arity and decode; the deposit takes no error channel, so the post-deposit
revert arm of the source is unreachable and the call succeeds. -/
def runMint (gas : Nat) (ctx : Ctx) (st : Bool) (params : List Param) (l : Ledger) : ExecOut :=
  if st then ⟨false, .revert .reverted 3155 zeros32, l⟩
  else if ctx.caller ≠ l.controller then ⟨false, .fatal .other, l⟩
  else if gas < 3155 then ⟨false, .error .outOfGas, l⟩
  else if params.length ≠ 2 then ⟨false, .fatal .other, l⟩
  else match extAddr params with
    | none => ⟨false, .fatal .other, l⟩
    | some (recvA, r1) =>
      match extU256 r1 with
      | none => ⟨false, .fatal .other, l⟩
      | some (v, _) =>
        ⟨true, .success 0 oneWord
          [⟨ctx.address, [.sig .transfer, .addr 0, .addr recvA], beBytes 32 v⟩],
          addBal l recvA v⟩

/-- Handler for `burnFrom` (source case `method_id_burn_from`): static
check, controller authorization, gas check (cost 3155), arity, decode; the
withdraw takes no error channel, so the post-withdraw revert arm of the
source is unreachable and the call succeeds. -/
def runBurnFrom (gas : Nat) (ctx : Ctx) (st : Bool) (params : List Param) (l : Ledger) : ExecOut :=
  if st then ⟨false, .revert .reverted 3155 zeros32, l⟩
  else if ctx.caller ≠ l.controller then ⟨false, .fatal .other, l⟩
  else if gas < 3155 then ⟨false, .error .outOfGas, l⟩
  else if params.length ≠ 2 then ⟨false, .fatal .other, l⟩
  else match extAddr params with
    | none => ⟨false, .fatal .other, l⟩
    | some (acctA, r1) =>
      match extU256 r1 with
      | none => ⟨false, .fatal .other, l⟩
      | some (v, _) =>
        ⟨true, .success 0 oneWord
          [⟨ctx.address, [.sig .transfer, .addr acctA, .addr 0], beBytes 32 v⟩],
          subBal l acctA v⟩

/-- Handler for `transferOwnership` (source case
`method_id_transfer_ownership`): static check, owner authorization, gas
check (cost 3155), arity, decode, then the role write (the setter's error
channel is modelled as always succeeding; no theorem below depends on its
failure arm).  The success log carries no data bytes. -/
def runTransferOwnership (gas : Nat) (ctx : Ctx) (st : Bool) (params : List Param) (l : Ledger) : ExecOut :=
  if st then ⟨false, .revert .reverted 3155 zeros32, l⟩
  else if ctx.caller ≠ l.owner then ⟨false, .fatal .other, l⟩
  else if gas < 3155 then ⟨false, .error .outOfGas, l⟩
  else if params.length ≠ 1 then ⟨false, .fatal .other, l⟩
  else match extAddr params with
    | none => ⟨false, .fatal .other, l⟩
    | some (newOwner, _) =>
      ⟨true, .success 0 oneWord
        [⟨ctx.address, [.sig .ownershipTransferred, .addr ctx.caller, .addr newOwner], []⟩],
        { l with owner := newOwner }⟩

/-- Handler for `setController` (source case `method_id_set_controller`):
static check, owner authorization, gas check (cost 3155), arity, decode,
then the role write; the old controller is read before the write and
appears in the log topics.  The success log carries no data bytes. -/
def runSetController (gas : Nat) (ctx : Ctx) (st : Bool) (params : List Param) (l : Ledger) : ExecOut :=
  if st then ⟨false, .revert .reverted 3155 zeros32, l⟩
  else if ctx.caller ≠ l.owner then ⟨false, .fatal .other, l⟩
  else if gas < 3155 then ⟨false, .error .outOfGas, l⟩
  else if params.length ≠ 1 then ⟨false, .fatal .other, l⟩
  else match extAddr params with
    | none => ⟨false, .fatal .other, l⟩
    | some (newController, _) =>
      ⟨true, .success 0 oneWord
        [⟨ctx.address, [.sig .controllerSet, .addr l.controller, .addr newController], []⟩],
        { l with controller := newController }⟩

/-- Handler for `owner` (source case `method_id_owner`): no gas check, no
parameter check; returns the stored owner as a left-padded 32-byte word. -/
def runOwner (l : Ledger) : ExecOut :=
  ⟨true, .success 0 (beBytes 32 l.owner) [], l⟩

/-- Handler for `controller` (source case `method_id_controller`): no gas
check, no parameter check; returns the stored controller left-padded. -/
def runController (l : Ledger) : ExecOut :=
  ⟨true, .success 0 (beBytes 32 l.controller) [], l⟩

/-- The thirteen methods of the dispatch switch. -/
inductive Method
  | decimals
  | totalSupply
  | balanceOf
  | transfer
  | transferFrom
  | approve
  | allowance
  | mint
  | burnFrom
  | transferOwnership
  | setController
  | owner
  | controller
deriving DecidableEq

/- Modelled from the spec: the 4-byte selector values live in the included
erc20 header outside the sources; only their pairwise distinctness matters
to the dispatcher.  The standard ERC20-style selector values are used. -/

/-- Selector of decimals(). -/
def method_id_decimals : Nat := 0x313ce567
/-- Selector of totalSupply(). -/
def method_id_total_supply : Nat := 0x18160ddd
/-- Selector of balanceOf(address). -/
def method_id_balance_of : Nat := 0x70a08231
/-- Selector of transfer(address,uint256). -/
def method_id_transfer : Nat := 0xa9059cbb
/-- Selector of transferFrom(address,address,uint256). -/
def method_id_transfer_from : Nat := 0x23b872dd
/-- Selector of approve(address,uint256). -/
def method_id_approve : Nat := 0x095ea7b3
/-- Selector of allowance(address,address). -/
def method_id_allowance : Nat := 0xdd62ed3e
/-- Selector of mint(address,uint256). -/
def method_id_mint : Nat := 0x40c10f19
/-- Selector of burnFrom(address,uint256). -/
def method_id_burn_from : Nat := 0x79cc6790
/-- Selector of transferOwnership(address). -/
def method_id_transfer_ownership : Nat := 0xf2fde38b
/-- Selector of setController(address). -/
def method_id_set_controller : Nat := 0x92eefe9b
/-- Selector of owner(). -/
def method_id_owner : Nat := 0x8da5cb5b
/-- Selector of controller(). -/
def method_id_controller : Nat := 0xf77c4791

/-- Selector lookup: the dispatch switch of the source; an unknown selector
falls through to the default case. -/
def methodOf (id : Nat) : Option Method :=
  if id = method_id_decimals then some .decimals
  else if id = method_id_total_supply then some .totalSupply
  else if id = method_id_balance_of then some .balanceOf
  else if id = method_id_transfer then some .transfer
  else if id = method_id_transfer_from then some .transferFrom
  else if id = method_id_approve then some .approve
  else if id = method_id_allowance then some .allowance
  else if id = method_id_mint then some .mint
  else if id = method_id_burn_from then some .burnFrom
  else if id = method_id_transfer_ownership then some .transferOwnership
  else if id = method_id_set_controller then some .setController
  else if id = method_id_owner then some .owner
  else if id = method_id_controller then some .controller
  else none

/-- Per-method handler dispatch. -/
def runMethod : Method → Nat → Ctx → Bool → List Param → Ledger → ExecOut
  | .decimals, _, _, _, _, l => runDecimals l
  | .totalSupply, gas, _, _, params, l => runTotalSupply gas params l
  | .balanceOf, gas, _, _, params, l => runBalanceOf gas params l
  | .transfer, gas, ctx, st, params, l => runTransfer gas ctx st params l
  | .transferFrom, gas, ctx, st, params, l => runTransferFrom gas ctx st params l
  | .approve, gas, ctx, st, params, l => runApprove gas ctx st params l
  | .allowance, gas, _, _, params, l => runAllowance gas params l
  | .mint, gas, ctx, st, params, l => runMint gas ctx st params l
  | .burnFrom, gas, ctx, st, params, l => runBurnFrom gas ctx st params l
  | .transferOwnership, gas, ctx, st, params, l => runTransferOwnership gas ctx st params l
  | .setController, gas, ctx, st, params, l => runSetController gas ctx st params l
  | .owner, _, _, _, _, l => runOwner l
  | .controller, _, _, _, _, l => runController l

/-- Body of the wire input after the 1-byte chain tag: either bytes on which
the ABI decoder build or the selector extraction fails, or a selector id
with the decoded parameter stream. -/
inductive TagBody
  | badBody
  | call (methodId : Nat) (params : List Param)
deriving DecidableEq

/-- Wire input: empty, or a chain-tag byte followed by the body. -/
inductive CallData
  | empty
  | withTag (tag : Nat) (body : TagBody)
deriving DecidableEq

/-- Modelled from the spec: the numeric value of the one supported chain tag
(`xchain_uuid_t::eth`, defined in a header outside the sources); only its
identity matters. -/
def chain_uuid_eth : Nat := 1

/-- The dispatcher `xtop_delegate_usdt_contract::execute`: empty input is
Fatal(Other); a chain tag other than eth is Fatal(NotSupported); a body on
which decoding fails is Fatal(Other); an unknown selector is
Fatal(NotSupported); otherwise the per-method handler runs. -/
def execute (input : CallData) (gas : Nat) (ctx : Ctx) (st : Bool) (l : Ledger) : ExecOut :=
  match input with
  | .empty => ⟨false, .fatal .other, l⟩
  | .withTag tag body =>
    if tag ≠ chain_uuid_eth then ⟨false, .fatal .notSupported, l⟩
    else
      match body with
      | .badBody => ⟨false, .fatal .other, l⟩
      | .call id params =>
        match methodOf id with
        | none => ⟨false, .fatal .notSupported, l⟩
        | some m => runMethod m gas ctx st params l

/-- Well-formed call input carrying the eth chain tag, a selector and the
decoded parameters. -/
def mkCall (id : Nat) (params : List Param) : CallData :=
  .withTag chain_uuid_eth (.call id params)

/-- Fixed gas cost table of the methods (the per-case `constexpr` gas
constants of the source; decimals, owner and controller perform no gas
check, i.e. cost 0). -/
def gasCost : Method → Nat
  | .decimals => 0
  | .totalSupply => 2538
  | .balanceOf => 3268
  | .transfer => 18446
  | .transferFrom => 18190
  | .approve => 18599
  | .allowance => 3987
  | .mint => 3155
  | .burnFrom => 3155
  | .transferOwnership => 3155
  | .setController => 3155
  | .owner => 0
  | .controller => 0

/-- Declared parameter signature per method; `none` for the methods whose
source case performs no arity or decode check (decimals, owner,
controller). -/
def sigOf : Method → Option (List PType)
  | .decimals => none
  | .totalSupply => some []
  | .balanceOf => some [.address]
  | .transfer => some [.address, .uint]
  | .transferFrom => some [.address, .address, .uint]
  | .approve => some [.address, .uint]
  | .allowance => some [.address, .address]
  | .mint => some [.address, .uint]
  | .burnFrom => some [.address, .uint]
  | .transferOwnership => some [.address]
  | .setController => some [.address]
  | .owner => none
  | .controller => none

/-- Methods that mutate the ledger (the methods whose source case carries
the static-context guard). -/
def isMutating : Method → Bool
  | .transfer | .transferFrom | .approve | .mint | .burnFrom
  | .transferOwnership | .setController => true
  | _ => false

/-- Authorization predicate: mint and burnFrom require the caller to be the
stored controller; transferOwnership and setController require the caller
to be the stored owner; other methods are unprivileged. -/
def roleOk (m : Method) (ctx : Ctx) (l : Ledger) : Bool :=
  match m with
  | .mint | .burnFrom => ctx.caller == l.controller
  | .transferOwnership | .setController => ctx.caller == l.owner
  | _ => true

/-- The one situation in which the source's bool return value disagrees
with the filled outcome struct: a non-static approve call with sufficient
gas and well-typed parameters whose ledger-level approve operation fails. -/
def approveFailCase (input : CallData) (gas : Nat) (ctx : Ctx) (st : Bool) (l : Ledger) : Prop :=
  st = false ∧ 18599 ≤ gas ∧
    ∃ spenderA amt, input = mkCall method_id_approve [.addr spenderA, .uint amt] ∧
      l.approveFails ctx.caller spenderA amt = true

/-- Concrete ledger used by witnesses: empty balances and allowances,
owner 3, controller 2, and a ledger approve that never fails. -/
def witLedger : Ledger :=
  { balance := fun _ => 0
    allowance := fun _ _ => 0
    owner := 3
    controller := 2
    approveFails := fun _ _ _ => false }

/-- Concrete ledger with a funded account 7 (balance 500), used by
witnesses that exercise a successful transfer. -/
def witLedgerBal : Ledger :=
  { balance := fun a => if a = 7 then 500 else 0
    allowance := fun _ _ => 0
    owner := 3
    controller := 2
    approveFails := fun _ _ _ => false }

/-- Concrete ledger whose black-box approve operation always fails, used by
the witness of the approve return-value anomaly. -/
def witLedgerAF : Ledger :=
  { balance := fun _ => 0
    allowance := fun _ _ => 0
    owner := 3
    controller := 2
    approveFails := fun _ _ _ => true }

/-- Dispatch reduction: a well-formed call with a known selector runs the
selected handler. -/
theorem execute_mkCall (id : Nat) (m : Method) (gas : Nat) (ctx : Ctx) (st : Bool)
    (params : List Param) (l : Ledger) (hm : methodOf id = some m) :
    execute (mkCall id params) gas ctx st l = runMethod m gas ctx st params l := by
  simp [execute, mkCall, hm]

/-- Selector lookup of decimals. -/
theorem methodOf_decimals : methodOf method_id_decimals = some Method.decimals := by decide
/-- Selector lookup of totalSupply. -/
theorem methodOf_totalSupply : methodOf method_id_total_supply = some Method.totalSupply := by decide
/-- Selector lookup of balanceOf. -/
theorem methodOf_balanceOf : methodOf method_id_balance_of = some Method.balanceOf := by decide
/-- Selector lookup of transfer. -/
theorem methodOf_transfer : methodOf method_id_transfer = some Method.transfer := by decide
/-- Selector lookup of transferFrom. -/
theorem methodOf_transferFrom : methodOf method_id_transfer_from = some Method.transferFrom := by decide
/-- Selector lookup of approve. -/
theorem methodOf_approve : methodOf method_id_approve = some Method.approve := by decide
/-- Selector lookup of allowance. -/
theorem methodOf_allowance : methodOf method_id_allowance = some Method.allowance := by decide
/-- Selector lookup of mint. -/
theorem methodOf_mint : methodOf method_id_mint = some Method.mint := by decide
/-- Selector lookup of burnFrom. -/
theorem methodOf_burnFrom : methodOf method_id_burn_from = some Method.burnFrom := by decide
/-- Selector lookup of transferOwnership. -/
theorem methodOf_transferOwnership :
    methodOf method_id_transfer_ownership = some Method.transferOwnership := by decide
/-- Selector lookup of setController. -/
theorem methodOf_setController :
    methodOf method_id_set_controller = some Method.setController := by decide
/-- Selector lookup of owner. -/
theorem methodOf_owner : methodOf method_id_owner = some Method.owner := by decide
/-- Selector lookup of controller. -/
theorem methodOf_controller : methodOf method_id_controller = some Method.controller := by decide

/-- C9: a decimals call succeeds for every gas limit (including 0), every
call context, every static flag, every parameter stream and every ledger
state, mutates nothing, and returns the constant 18 as a 32-byte big-endian
word (31 zero bytes followed by the byte 18). -/
theorem usdt_C9_decimals_constant (gas : Nat) (ctx : Ctx) (st : Bool)
    (params : List Param) (l : Ledger) :
    execute (mkCall method_id_decimals params) gas ctx st l
      = ⟨true, .success 0 (beBytes 32 18) [], l⟩ ∧
    beBytes 32 18 = List.replicate 31 0 ++ [18] := by
  refine ⟨?_, by decide⟩
  rw [execute_mkCall _ _ _ _ _ _ _ methodOf_decimals]
  rfl

/-- C1: atomicity violation of transferFrom demonstrated at a concrete
input.  With allowance(owner 10, spender 7) = 100 and balance(10) = 50, the
call transferFrom(10, 20, 100) by caller 7 (non-static, gas 20000) passes
the static, gas and decode checks, debits the allowance from 100 to 0, then
fails the balance transfer and reverts with cost 4326 — leaving the ledger
with the allowance debited but the transfer not applied, and no log. -/
theorem usdt_C1_transferFrom_partial_commit :
    let l0 : Ledger :=
      { balance := fun a => if a = 10 then 50 else 0
        allowance := fun o s => if o = 10 ∧ s = 7 then 100 else 0
        owner := 1
        controller := 2
        approveFails := fun _ _ _ => false }
    let r := execute (mkCall method_id_transfer_from [.addr 10, .addr 20, .uint 100])
      20000 ⟨7, 99⟩ false l0
    r.ret = false ∧ r.status = .revert .reverted 4326 zeros32 ∧
    l0.allowance 10 7 = 100 ∧ r.ledger.allowance 10 7 = 0 ∧
    r.ledger.balance 10 = 50 ∧ r.ledger.balance 20 = 0 := by
  refine ⟨rfl, ?_, rfl, rfl, rfl, rfl⟩
  decide

/-- C2 counterexample: the claimed check order puts gas sufficiency before
authorization, so a mint call by a non-controller with gas 0 would have to
produce Error(OutOfGas); the code produces Fatal(Other), because the
authorization check of the privileged methods runs before the gas check. -/
theorem usdt_C2_counterexample :
    let r := execute (mkCall method_id_mint [.addr 5, .uint 1]) 0 ⟨7, 99⟩ false witLedger
    r.status = .fatal .other ∧ r.status ≠ .error .outOfGas ∧ 0 < gasCost .mint := by
  decide

/-- C2 (amended): for every non-static call reaching a known method, the
checks run in the order authorization (for privileged methods), then gas,
then parameter arity, each failing check aborting with the documented
outcome and zero ledger change regardless of the inputs of the later
checks; the static-context check precedes them all (see the static-call
theorem); in particular the authorization check runs BEFORE the gas check
and before parameter decoding. -/
theorem usdt_C2_check_order (id : Nat) (m : Method) (gas : Nat) (ctx : Ctx)
    (params : List Param) (l : Ledger) (hm : methodOf id = some m) :
    (roleOk m ctx l = false →
      execute (mkCall id params) gas ctx false l = ⟨false, .fatal .other, l⟩) ∧
    (roleOk m ctx l = true → gas < gasCost m →
      execute (mkCall id params) gas ctx false l = ⟨false, .error .outOfGas, l⟩) ∧
    (roleOk m ctx l = true → ¬ gas < gasCost m → ∀ sig, sigOf m = some sig →
      params.length ≠ sig.length →
      execute (mkCall id params) gas ctx false l = ⟨false, .fatal .other, l⟩) := by
  rw [execute_mkCall _ _ _ _ _ _ _ hm]
  cases m <;>
    refine ⟨fun hr => ?_, fun hr hg => ?_, fun hr hg sig hsig hlen => ?_⟩ <;>
    first
    | (simp_all [roleOk, gasCost, sigOf, runMethod, runDecimals, runTotalSupply, runBalanceOf,
        runTransfer, runTransferFrom, runApprove, runAllowance, runMint, runBurnFrom,
        runTransferOwnership, runSetController, runOwner, runController]
       done)
    | (simp only [sigOf, Option.some.injEq] at hsig
       subst hsig
       simp only [gasCost] at hg
       simp only [roleOk, beq_iff_eq] at hr
       simp only [runMethod, runTotalSupply, runBalanceOf, runTransfer, runTransferFrom,
         runApprove, runAllowance, runMint, runBurnFrom, runTransferOwnership,
         runSetController]
       split_ifs <;> first | rfl | omega | simp_all)

/-- C2 witness: a mint call by the controller with gas 0 aborts with
Error(OutOfGas) and no ledger change. -/
theorem usdt_C2_check_order_witness :
    execute (mkCall method_id_mint []) 0 ⟨2, 99⟩ false witLedger
      = ⟨false, .error .outOfGas, witLedger⟩ :=
  (usdt_C2_check_order method_id_mint .mint 0 ⟨2, 99⟩ [] witLedger
    methodOf_mint).2.1 (by decide) (by decide)

/-- C3: a non-static mint or burnFrom call whose caller is not the stored
controller, and a non-static transferOwnership or setController call whose
caller is not the stored owner, aborts with Fatal(Other) and zero state
change, independent of the gas limit and of the parameter stream. -/
theorem usdt_C3_unauthorized_fatal (gas : Nat) (ctx : Ctx) (params : List Param) (l : Ledger) :
    (ctx.caller ≠ l.controller →
      execute (mkCall method_id_mint params) gas ctx false l = ⟨false, .fatal .other, l⟩ ∧
      execute (mkCall method_id_burn_from params) gas ctx false l = ⟨false, .fatal .other, l⟩) ∧
    (ctx.caller ≠ l.owner →
      execute (mkCall method_id_transfer_ownership params) gas ctx false l
        = ⟨false, .fatal .other, l⟩ ∧
      execute (mkCall method_id_set_controller params) gas ctx false l
        = ⟨false, .fatal .other, l⟩) := by
  constructor
  · intro h
    constructor
    · rw [execute_mkCall _ _ _ _ _ _ _ methodOf_mint]
      simp [runMethod, runMint, h]
    · rw [execute_mkCall _ _ _ _ _ _ _ methodOf_burnFrom]
      simp [runMethod, runBurnFrom, h]
  · intro h
    constructor
    · rw [execute_mkCall _ _ _ _ _ _ _ methodOf_transferOwnership]
      simp [runMethod, runTransferOwnership, h]
    · rw [execute_mkCall _ _ _ _ _ _ _ methodOf_setController]
      simp [runMethod, runSetController, h]

/-- C3 witness: mint by caller 7 while the stored controller is 2 aborts
with Fatal(Other) and no ledger change. -/
theorem usdt_C3_unauthorized_fatal_witness :
    execute (mkCall method_id_mint []) 0 ⟨7, 99⟩ false witLedger
      = ⟨false, .fatal .other, witLedger⟩ :=
  ((usdt_C3_unauthorized_fatal 0 ⟨7, 99⟩ [] witLedger).1 (by decide)).1

/-- C4 counterexample: the claim promises Error(OutOfGas) on a gas
shortfall regardless of the caller, but a transferOwnership call by a
non-owner with gas 0 produces Fatal(Other): the authorization check of the
privileged methods runs before the gas check. -/
theorem usdt_C4_counterexample :
    let r := execute (mkCall method_id_transfer_ownership [.addr 5]) 0 ⟨7, 99⟩ false witLedger
    r.status = .fatal .other ∧ r.status ≠ .error .outOfGas ∧
      0 < gasCost .transferOwnership := by
  decide

/-- C4 (amended): for every non-static call reaching a known method whose
caller passes the method's authorization check (vacuous for the
unprivileged methods), a gas limit below the method's fixed cost aborts
with Error(OutOfGas) and zero state change, regardless of parameter
validity. -/
theorem usdt_C4_gas_shortfall (id : Nat) (m : Method) (gas : Nat) (ctx : Ctx)
    (params : List Param) (l : Ledger) (hm : methodOf id = some m)
    (hrole : roleOk m ctx l = true) (hg : gas < gasCost m) :
    execute (mkCall id params) gas ctx false l = ⟨false, .error .outOfGas, l⟩ := by
  rw [execute_mkCall _ _ _ _ _ _ _ hm]
  cases m <;> simp_all [roleOk, gasCost, runMethod, runTotalSupply, runBalanceOf,
    runTransfer, runTransferFrom, runApprove, runAllowance, runMint, runBurnFrom,
    runTransferOwnership, runSetController]

/-- C4 witness: transferOwnership by the stored owner with gas 0 aborts
with Error(OutOfGas) and no ledger change. -/
theorem usdt_C4_gas_shortfall_witness :
    execute (mkCall method_id_transfer_ownership [.addr 5]) 0 ⟨3, 99⟩ false witLedger
      = ⟨false, .error .outOfGas, witLedger⟩ :=
  usdt_C4_gas_shortfall method_id_transfer_ownership .transferOwnership 0 ⟨3, 99⟩ [.addr 5]
    witLedger methodOf_transferOwnership (by decide) (by decide)

/-- C5: a static call to any mutating method (transfer, transferFrom,
approve, mint, burnFrom, transferOwnership, setController) aborts with
Revert(Reverted) carrying that method's fixed success gas cost and the
32-byte zero output buffer, and mutates nothing — for every gas limit,
caller and parameter stream. -/
theorem usdt_C5_static_revert (id : Nat) (m : Method) (gas : Nat) (ctx : Ctx)
    (params : List Param) (l : Ledger) (hm : methodOf id = some m)
    (hmut : isMutating m = true) :
    execute (mkCall id params) gas ctx true l
      = ⟨false, .revert .reverted (gasCost m) zeros32, l⟩ := by
  rw [execute_mkCall _ _ _ _ _ _ _ hm]
  cases m <;> simp_all [isMutating, gasCost, runMethod, runTransfer, runTransferFrom,
    runApprove, runMint, runBurnFrom, runTransferOwnership, runSetController]

/-- C5 witness: a static transfer call reverts with the transfer success
cost 18446 and the zero output buffer, and mutates nothing. -/
theorem usdt_C5_static_revert_witness :
    execute (mkCall method_id_transfer [.addr 5, .uint 7]) 99999 ⟨7, 99⟩ true witLedger
      = ⟨false, .revert .reverted (gasCost .transfer) zeros32, witLedger⟩ :=
  usdt_C5_static_revert method_id_transfer .transfer 99999 ⟨7, 99⟩ [.addr 5, .uint 7]
    witLedger methodOf_transfer (by decide)

/-- C6 counterexample: the claim promises Fatal(Other) on a parameter-count
mismatch for every method including decimals, but a decimals call carrying
one spurious parameter succeeds and returns 18: the decimals, owner and
controller cases perform no arity check. -/
theorem usdt_C6_counterexample :
    let r := execute (mkCall method_id_decimals [.uint 0]) 0 ⟨7, 99⟩ false witLedger
    r.ret = true ∧ r.status = .success 0 (beBytes 32 18) [] ∧
      r.status ≠ .fatal .other := by
  decide

/-- C6 (amended): for every non-static call reaching a method that declares
a parameter signature (totalSupply, balanceOf, transfer, transferFrom,
approve, allowance, mint, burnFrom, transferOwnership, setController), by
an authorized caller with sufficient gas, a parameter stream whose type
sequence differs from the declared signature (wrong count or wrong type)
aborts with Fatal(Other) and zero state change; decimals, owner and
controller perform no parameter check at all. -/
theorem usdt_C6_decode_fatal (id : Nat) (m : Method) (gas : Nat) (ctx : Ctx)
    (params : List Param) (l : Ledger) (sig : List PType) (hm : methodOf id = some m)
    (hsig : sigOf m = some sig) (hty : params.map tyOf ≠ sig)
    (hrole : roleOk m ctx l = true) (hg : ¬ gas < gasCost m) :
    execute (mkCall id params) gas ctx false l = ⟨false, .fatal .other, l⟩ := by
  rw [execute_mkCall _ _ _ _ _ _ _ hm]
  cases m <;>
    simp [sigOf] at hsig <;>
    subst hsig <;>
    simp only [gasCost] at hg <;>
    simp only [roleOk, beq_iff_eq] at hrole <;>
    simp only [runMethod, runTotalSupply, runBalanceOf, runTransfer, runTransferFrom,
      runApprove, runAllowance, runMint, runBurnFrom, runTransferOwnership,
      runSetController] <;>
    rcases params with _ | ⟨p1, _ | ⟨p2, _ | ⟨p3, rest⟩⟩⟩ <;>
    (try (cases p1)) <;>
    (try (cases p2)) <;>
    (try (cases p3)) <;>
    simp_all [extAddr, extU256, tyOf]

/-- C6 witness: a transfer call whose two parameters are swapped in type
(integer first, address second) aborts with Fatal(Other) and no ledger
change. -/
theorem usdt_C6_decode_fatal_witness :
    execute (mkCall method_id_transfer [.uint 5, .addr 8]) 20000 ⟨7, 99⟩ false witLedger
      = ⟨false, .fatal .other, witLedger⟩ :=
  usdt_C6_decode_fatal method_id_transfer .transfer 20000 ⟨7, 99⟩ [.uint 5, .addr 8]
    witLedger [.address, .uint] methodOf_transfer (by decide) (by decide) (by decide)
    (by decide)

/-- C7: a successful transfer(to, amt) — non-static, gas at least 18446,
recipient distinct from the caller, caller balance at least amt — returns
true with the 32-byte word whose low byte is 1, emits exactly one Transfer
log with topics [signature, caller, recipient] and data the 32-byte
encoding of amt, decreases the caller balance by amt, increases the
recipient balance by amt, and preserves the sum of the two balances. -/
theorem usdt_C7_transfer_success (gas : Nat) (ctx : Ctx) (toA amt : Nat) (l : Ledger)
    (hg : ¬ gas < 18446) (hbal : ¬ l.balance ctx.caller < amt) (hne : ctx.caller ≠ toA) :
    (execute (mkCall method_id_transfer [.addr toA, .uint amt]) gas ctx false l).ret = true ∧
    (execute (mkCall method_id_transfer [.addr toA, .uint amt]) gas ctx false l).status
      = .success 0 oneWord
        [⟨ctx.address, [.sig .transfer, .addr ctx.caller, .addr toA], beBytes 32 amt⟩] ∧
    (execute (mkCall method_id_transfer [.addr toA, .uint amt]) gas ctx false l).ledger.balance
        ctx.caller + amt = l.balance ctx.caller ∧
    (execute (mkCall method_id_transfer [.addr toA, .uint amt]) gas ctx false l).ledger.balance
        toA = l.balance toA + amt ∧
    (execute (mkCall method_id_transfer [.addr toA, .uint amt]) gas ctx false l).ledger.balance
          ctx.caller
        + (execute (mkCall method_id_transfer [.addr toA, .uint amt]) gas ctx false
            l).ledger.balance toA
      = l.balance ctx.caller + l.balance toA ∧
    oneWord = List.replicate 31 0 ++ [1] := by
  have he : execute (mkCall method_id_transfer [.addr toA, .uint amt]) gas ctx false l
      = ⟨true, .success 0 oneWord
          [⟨ctx.address, [.sig .transfer, .addr ctx.caller, .addr toA], beBytes 32 amt⟩],
        addBal (subBal l ctx.caller amt) toA amt⟩ := by
    rw [execute_mkCall _ _ _ _ _ _ _ methodOf_transfer]
    simp [runMethod, runTransfer, extAddr, extU256, ledgerTransfer, hg, hbal]
  refine ⟨by rw [he], by rw [he], ?_, ?_, ?_, by decide⟩
  · rw [he]
    simp [addBal, subBal, hne]
    omega
  · rw [he]
    simp [addBal, subBal, Ne.symm hne]
  · rw [he]
    simp [addBal, subBal, hne, Ne.symm hne]
    omega

/-- C7 witness: transfer(8, 100) by caller 7 with balance 500 and gas 20000
succeeds, moves 100 from account 7 to account 8, and emits one Transfer
log. -/
theorem usdt_C7_transfer_success_witness :
    (execute (mkCall method_id_transfer [.addr 8, .uint 100]) 20000 ⟨7, 99⟩ false
        witLedgerBal).ret = true ∧
    (execute (mkCall method_id_transfer [.addr 8, .uint 100]) 20000 ⟨7, 99⟩ false
        witLedgerBal).status
      = .success 0 oneWord [⟨99, [.sig .transfer, .addr 7, .addr 8], beBytes 32 100⟩] ∧
    (execute (mkCall method_id_transfer [.addr 8, .uint 100]) 20000 ⟨7, 99⟩ false
        witLedgerBal).ledger.balance 7 + 100 = witLedgerBal.balance 7 ∧
    (execute (mkCall method_id_transfer [.addr 8, .uint 100]) 20000 ⟨7, 99⟩ false
        witLedgerBal).ledger.balance 8 = witLedgerBal.balance 8 + 100 ∧
    (execute (mkCall method_id_transfer [.addr 8, .uint 100]) 20000 ⟨7, 99⟩ false
          witLedgerBal).ledger.balance 7
        + (execute (mkCall method_id_transfer [.addr 8, .uint 100]) 20000 ⟨7, 99⟩ false
            witLedgerBal).ledger.balance 8
      = witLedgerBal.balance 7 + witLedgerBal.balance 8 ∧
    oneWord = List.replicate 31 0 ++ [1] :=
  usdt_C7_transfer_success 20000 ⟨7, 99⟩ 8 100 witLedgerBal (by decide) (by decide)
    (by decide)

/-- C8: a non-static transfer call with sufficient gas whose caller balance
is below the requested amount reverts with the failure cost 3662 (distinct
from the success cost 18446), the 32-byte zero output, no log, and zero
state change. -/
theorem usdt_C8_transfer_insufficient (gas : Nat) (ctx : Ctx) (toA amt : Nat) (l : Ledger)
    (hg : ¬ gas < 18446) (hbal : l.balance ctx.caller < amt) :
    execute (mkCall method_id_transfer [.addr toA, .uint amt]) gas ctx false l
      = ⟨false, .revert .reverted 3662 zeros32, l⟩ ∧ (3662 : Nat) ≠ 18446 := by
  refine ⟨?_, by decide⟩
  rw [execute_mkCall _ _ _ _ _ _ _ methodOf_transfer]
  simp [runMethod, runTransfer, extAddr, extU256, ledgerTransfer, hg, hbal]

/-- C8 witness: transfer(8, 100) by caller 7 with balance 50 and gas 20000
reverts with cost 3662, a zero output buffer, and no ledger change. -/
theorem usdt_C8_transfer_insufficient_witness :
    execute (mkCall method_id_transfer [.addr 8, .uint 100]) 20000 ⟨7, 99⟩ false
        { balance := fun a => if a = 7 then 50 else 0
          allowance := fun _ _ => 0
          owner := 3
          controller := 2
          approveFails := fun _ _ _ => false }
      = ⟨false, .revert .reverted 3662 zeros32,
          { balance := fun a => if a = 7 then 50 else 0
            allowance := fun _ _ => 0
            owner := 3
            controller := 2
            approveFails := fun _ _ _ => false }⟩ ∧ (3662 : Nat) ≠ 18446 :=
  usdt_C8_transfer_insufficient 20000 ⟨7, 99⟩ 8 100
    { balance := fun a => if a = 7 then 50 else 0
      allowance := fun _ _ => 0
      owner := 3
      controller := 2
      approveFails := fun _ _ _ => false } (by decide) (by decide)

/-- Unpacking of the approve-fail description on a parsed call input. -/
theorem approveFailCase_elim {tag id : Nat} {params : List Param} {gas : Nat} {ctx : Ctx}
    {st : Bool} {l : Ledger}
    (h : approveFailCase (.withTag tag (.call id params)) gas ctx st l) :
    tag = chain_uuid_eth ∧ id = method_id_approve ∧ st = false ∧ ¬ gas < 18599 ∧
      ∃ spenderA amt, params = [Param.addr spenderA, Param.uint amt] ∧
        l.approveFails ctx.caller spenderA amt = true := by
  obtain ⟨hst, hgas, s, a, heq, hf⟩ := h
  simp only [mkCall] at heq
  injection heq with h1 h2
  injection h2 with h3 h4
  exact ⟨h1, h3, hst, by omega, s, a, h4, hf⟩

/-- Only the approve selector maps to the approve method. -/
theorem methodOf_approve_inv {id : Nat} (h : methodOf id = some Method.approve) :
    id = method_id_approve := by
  simp only [methodOf] at h
  by_cases h1 : id = method_id_decimals
  · rw [if_pos h1] at h
    exact absurd h (by simp)
  rw [if_neg h1] at h
  by_cases h2 : id = method_id_total_supply
  · rw [if_pos h2] at h
    exact absurd h (by simp)
  rw [if_neg h2] at h
  by_cases h3 : id = method_id_balance_of
  · rw [if_pos h3] at h
    exact absurd h (by simp)
  rw [if_neg h3] at h
  by_cases h4 : id = method_id_transfer
  · rw [if_pos h4] at h
    exact absurd h (by simp)
  rw [if_neg h4] at h
  by_cases h5 : id = method_id_transfer_from
  · rw [if_pos h5] at h
    exact absurd h (by simp)
  rw [if_neg h5] at h
  by_cases h6 : id = method_id_approve
  · exact h6
  rw [if_neg h6] at h
  by_cases h7 : id = method_id_allowance
  · rw [if_pos h7] at h
    exact absurd h (by simp)
  rw [if_neg h7] at h
  by_cases h8 : id = method_id_mint
  · rw [if_pos h8] at h
    exact absurd h (by simp)
  rw [if_neg h8] at h
  by_cases h9 : id = method_id_burn_from
  · rw [if_pos h9] at h
    exact absurd h (by simp)
  rw [if_neg h9] at h
  by_cases h10 : id = method_id_transfer_ownership
  · rw [if_pos h10] at h
    exact absurd h (by simp)
  rw [if_neg h10] at h
  by_cases h11 : id = method_id_set_controller
  · rw [if_pos h11] at h
    exact absurd h (by simp)
  rw [if_neg h11] at h
  by_cases h12 : id = method_id_owner
  · rw [if_pos h12] at h
    exact absurd h (by simp)
  rw [if_neg h12] at h
  by_cases h13 : id = method_id_controller
  · rw [if_pos h13] at h
    exact absurd h (by simp)
  rw [if_neg h13] at h
  exact absurd h (by simp)

/-- Outside the approve case, the bool result of a handler is true exactly
when the filled outcome is Success. -/
theorem runMethod_ret_iff (m : Method) (hne : m ≠ Method.approve) (gas : Nat) (ctx : Ctx)
    (st : Bool) (params : List Param) (l : Ledger) :
    ((runMethod m gas ctx st params l).ret = true ↔
      ∃ c o lg, (runMethod m gas ctx st params l).status = .success c o lg) := by
  cases m <;>
  first
  | exact absurd rfl hne
  | (simp only [runMethod, runDecimals, runTotalSupply, runBalanceOf, runTransfer,
      runTransferFrom, runAllowance, runMint, runBurnFrom, runTransferOwnership,
      runSetController, runOwner, runController]
     (repeat' split) <;> simp)

/-- C10: the bool returned by execute is true exactly when the produced
outcome is Success — except for the single approve path on which the
ledger-level approve operation fails: there execute still returns true
while the error struct holds Revert(Reverted) with half the approve gas
cost (18599 / 2 = 9299) and the 32-byte zero output buffer, so the host's
success flag and the populated outcome disagree. -/
theorem usdt_C10_ret_iff_success (input : CallData) (gas : Nat) (ctx : Ctx) (st : Bool)
    (l : Ledger) :
    ((execute input gas ctx st l).ret = true ↔
      ((∃ c o lg, (execute input gas ctx st l).status = .success c o lg) ∨
        approveFailCase input gas ctx st l)) ∧
    (approveFailCase input gas ctx st l →
      (execute input gas ctx st l).status = .revert .reverted (18599 / 2) zeros32) := by
  cases input with
  | empty =>
    have hnf : ¬ approveFailCase CallData.empty gas ctx st l := by
      rintro ⟨-, -, s, a, heq, -⟩
      simp only [mkCall] at heq
      exact CallData.noConfusion heq
    refine ⟨?_, fun hA => absurd hA hnf⟩
    simp [execute, hnf]
  | withTag tag body =>
    by_cases ht : tag = chain_uuid_eth
    · subst ht
      cases body with
      | badBody =>
        have hnf : ¬ approveFailCase (CallData.withTag chain_uuid_eth TagBody.badBody)
            gas ctx st l := by
          rintro ⟨-, -, s, a, heq, -⟩
          simp only [mkCall] at heq
          injection heq with h1 h2
          exact TagBody.noConfusion h2
        refine ⟨?_, fun hA => absurd hA hnf⟩
        simp [execute, hnf]
      | call id params =>
        rcases hm : methodOf id with _ | m
        · have hnf : ¬ approveFailCase (CallData.withTag chain_uuid_eth
              (TagBody.call id params)) gas ctx st l := by
            intro hA
            obtain ⟨-, hid, -⟩ := approveFailCase_elim hA
            rw [hid, methodOf_approve] at hm
            exact Option.noConfusion hm
          refine ⟨?_, fun hA => absurd hA hnf⟩
          simp [execute, hm, hnf]
        · by_cases hap : m = Method.approve
          · subst hap
            have hid := methodOf_approve_inv hm
            subst hid
            have hex : execute (CallData.withTag chain_uuid_eth
                (TagBody.call method_id_approve params)) gas ctx st l
                = runApprove gas ctx st params l := by
              simp [execute, methodOf_approve, runMethod]
            rw [hex]
            have hAiff : approveFailCase (CallData.withTag chain_uuid_eth
                (TagBody.call method_id_approve params)) gas ctx st l ↔
                (st = false ∧ ¬ gas < 18599 ∧ ∃ s a,
                  params = [Param.addr s, Param.uint a] ∧
                  l.approveFails ctx.caller s a = true) := by
              constructor
              · intro h
                obtain ⟨-, -, hst, hga, rest⟩ := approveFailCase_elim h
                exact ⟨hst, hga, rest⟩
              · rintro ⟨hst, hga, s, a, hp, hf⟩
                exact ⟨hst, by omega, s, a, by rw [hp]; rfl, hf⟩
            rw [hAiff]
            rcases st with _ | _
            · by_cases hg2 : gas < 18599
              · simp [runApprove, hg2]
              · rcases params with _ | ⟨p1, ps⟩
                · simp [runApprove, hg2]
                · rcases ps with _ | ⟨p2, ps2⟩
                  · cases p1 <;> simp [runApprove, hg2]
                  · rcases ps2 with _ | ⟨p3, ps3⟩
                    · cases p1 with
                      | addr s =>
                        cases p2 with
                        | addr b => simp [runApprove, hg2, extAddr, extU256]
                        | uint a =>
                          rcases hf : l.approveFails ctx.caller s a with _ | _
                          · simp [runApprove, hg2, extAddr, extU256, hf]
                          · simp [runApprove, hg2, extAddr, extU256, hf]
                            exact ⟨s, a, ⟨rfl, rfl⟩, hf⟩
                      | uint v => cases p2 <;> simp [runApprove, hg2, extAddr]
                    · simp [runApprove, hg2]
            · simp [runApprove]
          · have hnf : ¬ approveFailCase (CallData.withTag chain_uuid_eth
                (TagBody.call id params)) gas ctx st l := by
              intro hA
              obtain ⟨-, hid, -⟩ := approveFailCase_elim hA
              rw [hid, methodOf_approve] at hm
              exact hap (Option.some.inj hm).symm
            have hex : execute (CallData.withTag chain_uuid_eth
                (TagBody.call id params)) gas ctx st l
                = runMethod m gas ctx st params l := by
              simp [execute, hm]
            rw [hex]
            refine ⟨?_, fun hA => absurd hA hnf⟩
            simpa [hnf] using runMethod_ret_iff m hap gas ctx st params l
    · have hnf : ¬ approveFailCase (CallData.withTag tag body) gas ctx st l := by
        rintro ⟨-, -, s, a, heq, -⟩
        simp only [mkCall] at heq
        injection heq with h1 h2
        exact ht h1
      refine ⟨?_, fun hA => absurd hA hnf⟩
      simp [execute, ht, hnf]

/-- C10 witness: an approve call on a ledger whose approve operation fails
returns true while the error struct holds Revert(Reverted) with cost
18599 / 2 and the zero output buffer. -/
theorem usdt_C10_ret_iff_success_witness :
    (execute (mkCall method_id_approve [.addr 5, .uint 7]) 20000 ⟨9, 99⟩ false
        witLedgerAF).ret = true ∧
    (execute (mkCall method_id_approve [.addr 5, .uint 7]) 20000 ⟨9, 99⟩ false
        witLedgerAF).status = .revert .reverted (18599 / 2) zeros32 := by
  have h := usdt_C10_ret_iff_success (mkCall method_id_approve [.addr 5, .uint 7]) 20000
    ⟨9, 99⟩ false witLedgerAF
  have hA : approveFailCase (mkCall method_id_approve [.addr 5, .uint 7]) 20000 ⟨9, 99⟩
      false witLedgerAF := ⟨rfl, by decide, 5, 7, rfl, rfl⟩
  exact ⟨h.1.mpr (Or.inr hA), h.2 hA⟩

end UsdtPrecompile
